import Mathlib

/-!
Shallow embedding of `src/RequestFactory.js` of
`@advanced-rest-client/request-engine`.

The factory orchestrates two ordered, cancellable module pipelines
(request and response).  We model:

* JavaScript objects (for the permission-gated execution context and
  `Object.freeze`, which freezes one object shallowly);
* the `AbortController` registry (`this.abortControllers`): a heap of
  controllers, carrying the `aborted` flag, plus a map from request id to
  a controller reference, so that aliasing between the map entry and the
  local `signal` variable of a running pipeline is captured faithfully;
* the two module loops of `processRequest` / `processResponse`, with an
  explicit `schedule` parameter telling at which loop steps a concurrent
  `abort(request.id)` call is interleaved (the awaits inside the loop are
  the only interleaving points relevant to the registry).

External collaborators (actions runner, variables processor, environment
provider, modules registry) are out of scope per the spec; the module
list and the environment value are plain parameters.
-/

namespace RequestEngine

/-- A JavaScript value, as far as the execution-context claims need it:
a primitive/external reference (named by the path it is bundled from) or
an object with ordered string-keyed fields and a frozen flag. -/
inductive JsVal where
  | prim (name : String)
  | obj (frozen : Bool) (fields : List (String × JsVal))
deriving Repr

/-- Property lookup on an ordered field list (first match wins). -/
def fieldsGet : List (String × JsVal) → String → Option JsVal
  | [], _ => none
  | (k, v) :: rest, key => if k == key then some v else fieldsGet rest key

/-- Property lookup on a JS value; primitives have no properties. -/
def JsVal.get : JsVal → String → Option JsVal
  | .prim _, _ => none
  | .obj _ fs, key => fieldsGet fs key

/-- Whether the value itself is frozen (primitives are immutable). -/
def JsVal.isFrozen : JsVal → Bool
  | .prim _ => true
  | .obj fz _ => fz

/-- `Object.freeze`: marks the one object frozen; it does not recurse
into field values. -/
def freeze : JsVal → JsVal
  | .prim n => .prim n
  | .obj _ fs => .obj true fs

/-- `ctx` has property `k`. -/
def ctxHas (ctx : JsVal) (k : String) : Bool :=
  (ctx.get k).isSome

/-- `ctx.k1` exists and has property `k2`. -/
def ctxHas2 (ctx : JsVal) (k1 k2 : String) : Bool :=
  match ctx.get k1 with
  | some v => (v.get k2).isSome
  | none => false

/-- `prepareExecutionEvents` (src/RequestFactory.js:209-222): an object
literal bundling the nine event helpers verbatim, then `Object.freeze`. -/
def prepareExecutionEvents : JsVal :=
  freeze (.obj false [
    ("ArcNavigationEvents", .prim "Events.ArcNavigationEvents"),
    ("SessionCookieEvents", .prim "Events.SessionCookieEvents"),
    ("EncryptionEvents", .prim "Events.EncryptionEvents"),
    ("GoogleDriveEvents", .prim "Events.GoogleDriveEvents"),
    ("ProcessEvents", .prim "Events.ProcessEvents"),
    ("WorkspaceEvents", .prim "Events.WorkspaceEvents"),
    ("RequestEvents", .prim "Events.RequestEvents"),
    ("AuthorizationEvents", .prim "Events.AuthorizationEvents"),
    ("ConfigEvents", .prim "Events.ConfigEvents")])

/-- `prepareExecutionStore` (src/RequestFactory.js:228-245): the nine
store helpers, plus `Environment`/`Variable` only when `hasEnvironment`,
then `Object.freeze`. -/
def prepareExecutionStore (hasEnvironment : Bool) : JsVal :=
  freeze (.obj false ([
    ("AuthData", .prim "ArcModelEvents.AuthData"),
    ("ClientCertificate", .prim "ArcModelEvents.ClientCertificate"),
    ("HostRules", .prim "ArcModelEvents.HostRules"),
    ("Project", .prim "ArcModelEvents.Project"),
    ("Request", .prim "ArcModelEvents.Request"),
    ("RestApi", .prim "ArcModelEvents.RestApi"),
    ("UrlHistory", .prim "ArcModelEvents.UrlHistory"),
    ("UrlIndexer", .prim "ArcModelEvents.UrlIndexer"),
    ("WSUrlHistory", .prim "ArcModelEvents.WSUrlHistory")] ++
    (if hasEnvironment then [
      ("Environment", .prim "ArcModelEvents.Environment"),
      ("Variable", .prim "ArcModelEvents.Variable")] else [])))

/-- `buildExecutionContext` (src/RequestFactory.js:187-202): starts from
`\x7b eventsTarget \x7d`, adds `environment`, `Events`, `Store` gated by the
permission list, then `Object.freeze`s the result.  `et` is the factory's
`this.eventsTarget`, `environment` the resolved environment state. -/
def buildExecutionContext (et : JsVal) (permissions : List String)
    (environment : JsVal) : JsVal :=
  let fields0 := [("eventsTarget", et)]
  let hasEnvironment := permissions.contains "environment"
  let fields1 := if hasEnvironment
    then fields0 ++ [("environment", environment)] else fields0
  let fields2 := if permissions.contains "events"
    then fields1 ++ [("Events", prepareExecutionEvents)] else fields1
  let fields3 := if permissions.contains "store"
    then fields2 ++ [("Store", prepareExecutionStore hasEnvironment)] else fields2
  freeze (.obj false fields3)

mutual

/-- Every object reachable from the value is frozen — the "deeply
immutable" reading of the spec, which a single shallow `Object.freeze`
does not by itself provide. -/
def JsVal.deepFrozen : JsVal → Bool
  | .prim _ => true
  | .obj fz fs => fz && deepFrozenFields fs

/-- All field values of an object are deeply frozen. -/
def deepFrozenFields : List (String × JsVal) → Bool
  | [] => true
  | (_, v) :: rest => v.deepFrozen && deepFrozenFields rest

end

/-- The value at property `k` is (at least shallowly) frozen; absent or
primitive properties count as immutable. -/
def frozenAt (ctx : JsVal) (k : String) : Bool :=
  match ctx.get k with
  | some v => v.isFrozen
  | none => true

/-- The nested `request` sub-record of an editor request (url, method,
headers, payload), the part modules and the variables processor mutate. -/
structure RequestData where
  url : String
  method : String
  headers : String
  payload : String
deriving DecidableEq, Repr

/-- `ArcEditorRequest`: a stable id plus the request sub-record. -/
structure ArcEditorRequest where
  id : String
  request : RequestData
deriving DecidableEq, Repr

/-- Transport request snapshot, opaque to this core. -/
abbrev TransportRequest := String

/-- Transport response (or error response), opaque to this core. -/
abbrev ArcResponse := String

/-- Modelled from the spec: `ExecutionResponse.js` is not under `src/`;
the spec's Execution Signal enumeration is `CONTINUE | ABORT`, and the
module entry points return numbers (`Promise<number>`), compared by the
runner against `ExecutionResponse.ABORT` only. -/
def ExecutionResponse.CONTINUE : Nat := 0

/-- Modelled from the spec: the `ABORT` member of the signal
enumeration in the missing `ExecutionResponse.js` (any value distinct
from `CONTINUE` works; the runner only tests equality with it). -/
def ExecutionResponse.ABORT : Nat := 1

/-- What one module invocation does: it may mutate the editor request in
place and then either return a numeric signal or throw with a message.
Both constructors carry the request state the module leaves behind
(JavaScript mutations persist even when the module throws). -/
inductive ModuleResult where
  | done (request : ArcEditorRequest) (result : Nat)
  | fail (request : ArcEditorRequest) (message : String)

/-- A registered request module: declared permissions plus the entry
function, which receives the request, the execution context and the
abort signal's current state. -/
structure RegisteredRequestModule where
  permissions : List String
  fn : ArcEditorRequest → JsVal → Bool → ModuleResult

/-- A registered response module additionally receives the transport
request and the response. -/
structure RegisteredResponseModule where
  permissions : List String
  fn : ArcEditorRequest → TransportRequest → ArcResponse → JsVal → Bool → ModuleResult

/-- The factory's cancellation bookkeeping.  `heap` assigns each
allocated `AbortController` (numbered by allocation order) its `aborted`
flag; `abortControllers` is `this.abortControllers`, mapping a request id
to a controller; `nextCtrl` is the allocator counter.  Keeping
controllers in a heap separates the *object* (which a running pipeline
holds through its `signal` binding) from its *registration*, exactly the
aliasing the source relies on. -/
structure FactoryState where
  heap : List (Nat × Bool)
  abortControllers : List (String × Nat)
  nextCtrl : Nat
deriving DecidableEq, Repr

/-- `aborted` flag of a controller (false when unknown). -/
def heapGet : List (Nat × Bool) → Nat → Bool
  | [], _ => false
  | p :: rest, c => if p.1 == c then p.2 else heapGet rest c

/-- `controller.abort()`: set the flag of controller `c`. -/
def heapSet : List (Nat × Bool) → Nat → Bool → List (Nat × Bool)
  | [], _, _ => []
  | p :: rest, c, b => if p.1 == c then (c, b) :: rest else p :: heapSet rest c b

/-- `Map.prototype.get`. -/
def mapGet : List (String × Nat) → String → Option Nat
  | [], _ => none
  | p :: rest, k => if p.1 == k then some p.2 else mapGet rest k

/-- `Map.prototype.delete`. -/
def mapDelete : List (String × Nat) → String → List (String × Nat)
  | [], _ => []
  | p :: rest, k => if p.1 == k then mapDelete rest k else p :: mapDelete rest k

/-- `Map.prototype.set`: update in place when the key exists, else
append (JS maps preserve insertion order). -/
def mapSet : List (String × Nat) → String → Nat → List (String × Nat)
  | [], k, v => [(k, v)]
  | p :: rest, k, v => if p.1 == k then (k, v) :: rest else p :: mapSet rest k v

/-- `abort(id)` (src/RequestFactory.js:53-60): look up the registered
controller; when absent do nothing, otherwise abort that controller and
delete the registry entry. -/
def abort (s : FactoryState) (id : String) : FactoryState :=
  match mapGet s.abortControllers id with
  | none => s
  | some controller =>
    { s with heap := heapSet s.heap controller true,
             abortControllers := mapDelete s.abortControllers id }

/-- Outcome of `executeRequestModule`/`executeResponseModule`: the
(possibly mutated) request plus the returned number, or the wrapped
thrown error. -/
inductive ExecResult where
  | ok (request : ArcEditorRequest) (result : Nat)
  | err (request : ArcEditorRequest) (message : String)

/-- `executeRequestModule` (src/RequestFactory.js:143-155): build the
execution context, invoke the module; a throw is wrapped into
`Request module <id> reported error: <original>` and re-thrown
(`console.warn` logging is a side effect outside the model). -/
def executeRequestModule (et : JsVal) (request : ArcEditorRequest) (id : String)
    (info : RegisteredRequestModule) (environment : JsVal) (sig : Bool) :
    ExecResult :=
  let context := buildExecutionContext et info.permissions environment
  match info.fn request context sig with
  | .done req2 result => .ok req2 result
  | .fail req2 e =>
    .err req2 ("Request module " ++ id ++ " reported error: " ++ e)

/-- `executeResponseModule` (src/RequestFactory.js:167-179): as above
but the module also receives the transport request and the response;
the wrap template is the same `Request module ...` string as in the
request executor (so in the source). -/
def executeResponseModule (et : JsVal) (request : ArcEditorRequest)
    (executed : TransportRequest) (response : ArcResponse) (id : String)
    (info : RegisteredResponseModule) (environment : JsVal) (sig : Bool) :
    ExecResult :=
  let context := buildExecutionContext et info.permissions environment
  match info.fn request executed response context sig with
  | .done req2 result => .ok req2 result
  | .fail req2 e =>
    .err req2 ("Request module " ++ id ++ " reported error: " ++ e)

/-- How one observed module invocation ended. -/
inductive StepRes where
  | continued
  | abortSignal
  | failed (message : String)
deriving DecidableEq, Repr

/-- One entry of the invocation trace: the module's id, how its
invocation ended, and the request state it left behind. -/
structure LogEntry where
  id : String
  res : StepRes
  reqAfter : ArcEditorRequest
deriving DecidableEq, Repr

deriving instance DecidableEq for Except

/-- Result of the request-module loop: the value `processRequest`
resolves to (`.error` = rejection, `.ok none` = null, `.ok (some r)` =
the request), the factory state, the caller-visible request state, the
invocation trace, and whether the `signal.aborted` early-exit branch was
taken. -/
structure LoopResult where
  outcome : Except String (Option ArcEditorRequest)
  state : FactoryState
  request : ArcEditorRequest
  log : List LogEntry
  early : Bool
deriving DecidableEq, Repr

/-- The request-module `for` loop of `processRequest`
(src/RequestFactory.js:85-95), plus the registration of the fresh
controller that follows it (line 96, the `[]` case here: reached exactly
when the loop falls through).  `ctrl` is the controller allocated at the
start of the call, whose `signal` the loop consults; `schedule k` tells
whether a concurrent `abort(request.id)` happens before iteration `k`. -/
def runRequestModules (et : JsVal) (reqId : String) (ctrl : Nat)
    (environment : JsVal) (schedule : Nat → Bool) :
    List (String × RegisteredRequestModule) → Nat → FactoryState →
    ArcEditorRequest → LoopResult
  | [], _, s, req =>
    { outcome := .ok (some req),
      state := { s with abortControllers := mapSet s.abortControllers reqId ctrl },
      request := req, log := [], early := false }
  | (id, main) :: rest, k, s, req =>
    let s1 := if schedule k then abort s reqId else s
    if heapGet s1.heap ctrl then
      { outcome := .ok none,
        state := { s1 with abortControllers := mapDelete s1.abortControllers reqId },
        request := req, log := [], early := true }
    else
      match executeRequestModule et req id main environment (heapGet s1.heap ctrl) with
      | .err req2 msg =>
        { outcome := .error msg, state := s1, request := req2,
          log := [⟨id, .failed msg, req2⟩], early := false }
      | .ok req2 result =>
        if result == ExecutionResponse.ABORT then
          { outcome := .ok none, state := s1, request := req2,
            log := [⟨id, .abortSignal, req2⟩], early := false }
        else
          let r := runRequestModules et reqId ctrl environment schedule rest
            (k + 1) s1 req2
          { outcome := r.outcome, state := r.state, request := r.request,
            log := ⟨id, .continued, req2⟩ :: r.log, early := r.early }

/-- Result of a whole `processRequest` call; `usedCtrl` is the
controller whose `signal` the module loop consulted. -/
structure RunResult where
  outcome : Except String (Option ArcEditorRequest)
  state : FactoryState
  request : ArcEditorRequest
  log : List LogEntry
  usedCtrl : Nat
  early : Bool
deriving DecidableEq, Repr

/-- `processRequest` (src/RequestFactory.js:70-98): allocates a fresh
`AbortController` (line 71) — without consulting or touching the
registry — then runs the module loop with that controller's signal.  The
external pre-actions, environment fetch and variable evaluation
(lines 73-82) are collaborator calls that do not touch the cancellation
state and are outside the model; `environment` is the fetched state. -/
def processRequest (et : JsVal) (mods : List (String × RegisteredRequestModule))
    (environment : JsVal) (schedule : Nat → Bool) (s : FactoryState)
    (request : ArcEditorRequest) : RunResult :=
  let ctrl := s.nextCtrl
  let s0 : FactoryState :=
    { heap := s.heap ++ [(ctrl, false)],
      abortControllers := s.abortControllers,
      nextCtrl := s.nextCtrl + 1 }
  let r := runRequestModules et request.id ctrl environment schedule mods 0 s0 request
  { outcome := r.outcome, state := r.state, request := r.request,
    log := r.log, usedCtrl := ctrl, early := r.early }

/-- Result of the response-module loop (`processResponse` resolves with
no value; `.error` is a rejection). -/
structure RespLoopResult where
  outcome : Except String Unit
  state : FactoryState
  request : ArcEditorRequest
  log : List LogEntry
  early : Bool
deriving DecidableEq, Repr

/-- The response-module `for` loop of `processResponse`
(src/RequestFactory.js:120-131) plus the final
`abortControllers.delete(request.id)` (line 132, the `[]` case: reached
exactly when the loop falls through).  Unlike the request loop, the
cancellation early-exit and the `ABORT`-signal exit also delete the
registry entry; a thrown module error propagates *without* reaching any
delete. -/
def runResponseModules (et : JsVal) (reqId : String) (ctrl : Nat)
    (executed : TransportRequest) (response : ArcResponse)
    (environment : JsVal) (schedule : Nat → Bool) :
    List (String × RegisteredResponseModule) → Nat → FactoryState →
    ArcEditorRequest → RespLoopResult
  | [], _, s, req =>
    { outcome := .ok (),
      state := { s with abortControllers := mapDelete s.abortControllers reqId },
      request := req, log := [], early := false }
  | (id, main) :: rest, k, s, req =>
    let s1 := if schedule k then abort s reqId else s
    if heapGet s1.heap ctrl then
      { outcome := .ok (),
        state := { s1 with abortControllers := mapDelete s1.abortControllers reqId },
        request := req, log := [], early := true }
    else
      match executeResponseModule et req executed response id main environment
        (heapGet s1.heap ctrl) with
      | .err req2 msg =>
        { outcome := .error msg, state := s1, request := req2,
          log := [⟨id, .failed msg, req2⟩], early := false }
      | .ok req2 result =>
        if result == ExecutionResponse.ABORT then
          { outcome := .ok (),
            state := { s1 with abortControllers := mapDelete s1.abortControllers reqId },
            request := req2,
            log := [⟨id, .abortSignal, req2⟩], early := false }
        else
          let r := runResponseModules et reqId ctrl executed response environment
            schedule rest (k + 1) s1 req2
          { outcome := r.outcome, state := r.state, request := r.request,
            log := ⟨id, .continued, req2⟩ :: r.log, early := r.early }

/-- Result of a whole `processResponse` call. -/
structure RespRunResult where
  outcome : Except String Unit
  state : FactoryState
  request : ArcEditorRequest
  log : List LogEntry
  usedCtrl : Nat
  early : Bool
deriving DecidableEq, Repr

/-- `processResponse` (src/RequestFactory.js:109-133): reuse the
registered controller for `request.id` when one exists, else allocate a
fresh one (lines 110-113; the fresh one is *not* registered), then run
the response-module loop.  External post-actions and the environment
fetch (lines 115-119) are outside the model. -/
def processResponse (et : JsVal) (mods : List (String × RegisteredResponseModule))
    (environment : JsVal) (schedule : Nat → Bool) (s : FactoryState)
    (request : ArcEditorRequest) (executed : TransportRequest)
    (response : ArcResponse) : RespRunResult :=
  match mapGet s.abortControllers request.id with
  | some ctrl =>
    let r := runResponseModules et request.id ctrl executed response environment
      schedule mods 0 s request
    { outcome := r.outcome, state := r.state, request := r.request,
      log := r.log, usedCtrl := ctrl, early := r.early }
  | none =>
    let ctrl := s.nextCtrl
    let s0 : FactoryState :=
      { heap := s.heap ++ [(ctrl, false)],
        abortControllers := s.abortControllers,
        nextCtrl := s.nextCtrl + 1 }
    let r := runResponseModules et request.id ctrl executed response environment
      schedule mods 0 s0 request
    { outcome := r.outcome, state := r.state, request := r.request,
      log := r.log, usedCtrl := ctrl, early := r.early }

/-- Well-formed factory state: every allocated controller, in the heap
or registered, has a number below the allocator counter.  This holds for
the initial empty state and is preserved by every operation of the
factory (allocation bumps the counter, nothing else mints numbers). -/
def FactoryState.WF (s : FactoryState) : Prop :=
  (∀ p ∈ s.heap, p.1 < s.nextCtrl) ∧ ∀ q ∈ s.abortControllers, q.2 < s.nextCtrl

instance (s : FactoryState) : Decidable s.WF := by
  unfold FactoryState.WF; infer_instance

/-- Controller `ctrl` is not aborted and not registered under any id:
the situation of the fresh controller of `processRequest` throughout its
module loop. -/
def ctrlFresh (ctrl : Nat) (s : FactoryState) : Prop :=
  heapGet s.heap ctrl = false ∧ ∀ q ∈ s.abortControllers, q.2 ≠ ctrl

/-- Sample editor request used in concrete runs. -/
def reqSample : ArcEditorRequest :=
  ⟨"r1", ⟨"https://api.test/", "GET", "", ""⟩⟩

/-- A request module that mutates the request (appends `tag` to the
headers) and returns no special signal. -/
def contModule (tag : String) : RegisteredRequestModule :=
  ⟨[], fun r _ _ =>
    .done { r with request := { r.request with headers := r.request.headers ++ tag } }
      ExecutionResponse.CONTINUE⟩

/-- A request module that mutates the request and returns `ABORT`. -/
def abortModule (tag : String) : RegisteredRequestModule :=
  ⟨[], fun r _ _ =>
    .done { r with request := { r.request with headers := r.request.headers ++ tag } }
      ExecutionResponse.ABORT⟩

/-- A request module that throws with message `msg`. -/
def failModule (msg : String) : RegisteredRequestModule :=
  ⟨[], fun r _ _ => .fail r msg⟩

/-- A response module that mutates the request and continues. -/
def contRespModule (tag : String) : RegisteredResponseModule :=
  ⟨[], fun r _ _ _ _ =>
    .done { r with request := { r.request with headers := r.request.headers ++ tag } }
      ExecutionResponse.CONTINUE⟩

/-- A response module that returns `ABORT`. -/
def abortRespModule : RegisteredResponseModule :=
  ⟨[], fun r _ _ _ _ => .done r ExecutionResponse.ABORT⟩

/-- A response module that throws with message `msg`. -/
def failRespModule (msg : String) : RegisteredResponseModule :=
  ⟨[], fun r _ _ _ _ => .fail r msg⟩

/-- A factory that has never run anything. -/
def emptyState : FactoryState := ⟨[], [], 0⟩

/-- A factory holding one live registered token (controller 0) for
request id `r1` — the state `processRequest` leaves behind on success. -/
def stateWithToken : FactoryState := ⟨[(0, false)], [("r1", 0)], 1⟩

/-- Schedule with no concurrent `abort` calls. -/
def noAborts : Nat → Bool := fun _ => false

/-- Schedule calling `abort(request.id)` once, before the first module. -/
def abortAtStart : Nat → Bool := fun k => k == 0

/-- A sample unfrozen environment object (`variables` + metadata), as
delivered by the environment provider. -/
def envSample : JsVal :=
  .obj false [("variables", .prim "variables"), ("environment", .prim "default")]

/-! ## Registry and heap lemmas -/

theorem heapGet_heapSet_ne (h : List (Nat × Bool)) (c x : Nat) (b : Bool)
    (hne : c ≠ x) : heapGet (heapSet h c b) x = heapGet h x := by
  induction h with
  | nil => rfl
  | cons p t ih =>
    by_cases hp : p.1 = c
    · simp [heapSet, heapGet, hp, hne, Ne.symm hne]
    · by_cases hx : p.1 = x <;>
        simp [heapSet, heapGet, hp, hx, ih, Ne.symm hne]

theorem mapGet_mem (m : List (String × Nat)) (k : String) (c : Nat)
    (h : mapGet m k = some c) : (k, c) ∈ m := by
  induction m with
  | nil => simp [mapGet] at h
  | cons p t ih =>
    by_cases hp : p.1 = k
    · simp only [mapGet, hp, beq_self_eq_true, if_true] at h
      cases h
      have hpk : (k, p.2) = p := by rw [← hp]
      rw [hpk]
      exact List.mem_cons_self _ _
    · simp only [mapGet, hp, beq_iff_eq, if_false] at h
      exact List.mem_cons_of_mem _ (ih h)

theorem mem_mapDelete (m : List (String × Nat)) (k : String) (q : String × Nat)
    (h : q ∈ mapDelete m k) : q ∈ m := by
  induction m with
  | nil => simp [mapDelete] at h
  | cons p t ih =>
    by_cases hp : p.1 = k
    · simp only [mapDelete, hp, beq_self_eq_true, if_true] at h
      exact List.mem_cons_of_mem _ (ih h)
    · simp only [mapDelete, hp, beq_iff_eq, if_false, List.mem_cons] at h
      rcases h with h | h
      · exact h ▸ List.mem_cons_self _ _
      · exact List.mem_cons_of_mem _ (ih h)

theorem mapGet_mapDelete_self (m : List (String × Nat)) (k : String) :
    mapGet (mapDelete m k) k = none := by
  induction m with
  | nil => rfl
  | cons p t ih =>
    by_cases hp : p.1 = k
    · simp [mapDelete, hp, ih]
    · simp [mapDelete, mapGet, hp, ih]

theorem heapGet_append_fresh (h : List (Nat × Bool)) (c : Nat) (b : Bool)
    (hc : ∀ p ∈ h, p.1 ≠ c) : heapGet (h ++ [(c, b)]) c = b := by
  induction h with
  | nil => simp [heapGet]
  | cons p t ih =>
    have hp := hc p (List.mem_cons_self _ _)
    simp only [List.cons_append, heapGet, hp, beq_iff_eq, if_false]
    exact ih fun q hq => hc q (List.mem_cons_of_mem _ hq)

/-! ## The fresh controller of `processRequest` stays fresh -/

theorem ctrlFresh_abort (s : FactoryState) (rid : String) (ctrl : Nat)
    (h : ctrlFresh ctrl s) : ctrlFresh ctrl (abort s rid) := by
  rcases h with ⟨hheap, hreg⟩
  unfold abort
  cases hm : mapGet s.abortControllers rid with
  | none => exact ⟨hheap, hreg⟩
  | some c =>
    have hc : c ≠ ctrl := hreg (rid, c) (mapGet_mem _ _ _ hm)
    refine ⟨?_, ?_⟩
    · rw [heapGet_heapSet_ne _ _ _ _ hc]
      exact hheap
    · exact fun q hq => hreg q (mem_mapDelete _ _ _ hq)

/-! ## Request-loop lemmas -/

theorem runRequestModules_early_false (et : JsVal) (rid : String) (ctrl : Nat)
    (env : JsVal) (sched : Nat → Bool)
    (mods : List (String × RegisteredRequestModule)) :
    ∀ (k : Nat) (s : FactoryState) (req : ArcEditorRequest), ctrlFresh ctrl s →
      (runRequestModules et rid ctrl env sched mods k s req).early = false := by
  induction mods with
  | nil => intro k s req _; rfl
  | cons p rest ih =>
    intro k s req h
    obtain ⟨id, main⟩ := p
    have h1 : ctrlFresh ctrl (if sched k then abort s rid else s) := by
      split
      · exact ctrlFresh_abort s rid ctrl h
      · exact h
    have hab : heapGet (if sched k then abort s rid else s).heap ctrl = false := h1.1
    simp only [runRequestModules, hab, Bool.false_eq_true, if_false]
    cases hex : executeRequestModule et req id main env false with
    | err req2 msg => rfl
    | ok req2 result =>
      try dsimp only
      cases hr : result == ExecutionResponse.ABORT with
      | true => simp only [hr, if_true]
      | false =>
        simp only [hr, Bool.false_eq_true, if_false]
        exact ih (k + 1) _ req2 h1

theorem runRequestModules_log_ids (et : JsVal) (rid : String) (ctrl : Nat)
    (env : JsVal) (sched : Nat → Bool)
    (mods : List (String × RegisteredRequestModule)) :
    ∀ (k : Nat) (s : FactoryState) (req : ArcEditorRequest),
      (runRequestModules et rid ctrl env sched mods k s req).log.map LogEntry.id
        = (mods.map Prod.fst).take
            (runRequestModules et rid ctrl env sched mods k s req).log.length := by
  induction mods with
  | nil => intro k s req; rfl
  | cons p rest ih =>
    intro k s req
    obtain ⟨id, main⟩ := p
    simp only [runRequestModules]
    cases hab : heapGet (if sched k then abort s rid else s).heap ctrl with
    | true => simp
    | false =>
      simp only [Bool.false_eq_true, if_false]
      cases hex : executeRequestModule et req id main env false with
      | err req2 msg => simp
      | ok req2 result =>
        try dsimp only
        cases hr : result == ExecutionResponse.ABORT with
        | true => simp
        | false =>
          simp only [hr, Bool.false_eq_true, if_false]
          try dsimp only
          simp only [List.map_cons, List.length_cons, List.take_succ_cons,
            List.cons.injEq, true_and]
          exact ih (k + 1) _ req2

theorem executeRequestModule_err_shape (et : JsVal) (req : ArcEditorRequest)
    (id : String) (info : RegisteredRequestModule) (env : JsVal) (sig : Bool)
    (req2 : ArcEditorRequest) (msg : String)
    (h : executeRequestModule et req id info env sig = .err req2 msg) :
    ∃ orig, msg = "Request module " ++ id ++ " reported error: " ++ orig := by
  simp only [executeRequestModule] at h
  cases hfn : info.fn req (buildExecutionContext et info.permissions env) sig with
  | done r2 res => rw [hfn] at h; simp at h
  | fail r2 e0 =>
    rw [hfn] at h
    simp only [ExecResult.err.injEq] at h
    exact ⟨e0, h.2.symm⟩

theorem runRequestModules_abortSignal_last (et : JsVal) (rid : String)
    (ctrl : Nat) (env : JsVal) (sched : Nat → Bool)
    (mods : List (String × RegisteredRequestModule)) :
    ∀ (k : Nat) (s : FactoryState) (req : ArcEditorRequest) (j : Nat)
      (e : LogEntry),
      (runRequestModules et rid ctrl env sched mods k s req).log.get? j = some e →
      e.res = .abortSignal →
      j + 1 = (runRequestModules et rid ctrl env sched mods k s req).log.length ∧
      (runRequestModules et rid ctrl env sched mods k s req).outcome = .ok none ∧
      (runRequestModules et rid ctrl env sched mods k s req).request = e.reqAfter := by
  induction mods with
  | nil => intro k s req j e hj _; simp [runRequestModules] at hj
  | cons p rest ih =>
    intro k s req j e hj hres
    obtain ⟨id, main⟩ := p
    revert hj
    simp only [runRequestModules]
    cases hab : heapGet (if sched k then abort s rid else s).heap ctrl with
    | true => intro hj; simp at hj
    | false =>
      simp only [Bool.false_eq_true, if_false]
      cases hex : executeRequestModule et req id main env false with
      | err req2 msg =>
        intro hj
        cases j with
        | zero =>
          simp only [List.get?_cons_zero, Option.some.injEq] at hj
          rw [← hj] at hres
          simp at hres
        | succ n => simp at hj
      | ok req2 result =>
        try dsimp only
        cases hr : result == ExecutionResponse.ABORT with
        | true =>
          simp only [if_true]
          intro hj
          cases j with
          | zero =>
            simp only [List.get?_cons_zero, Option.some.injEq] at hj
            rw [← hj]
            exact ⟨by simp, by simp, by simp⟩
          | succ n => simp at hj
        | false =>
          simp only [Bool.false_eq_true, if_false]
          try dsimp only
          intro hj
          cases j with
          | zero =>
            simp only [List.get?_cons_zero, Option.some.injEq] at hj
            rw [← hj] at hres
            simp at hres
          | succ n =>
            simp only [List.get?_cons_succ] at hj
            obtain ⟨h1, h2, h3⟩ := ih (k + 1) _ req2 n e hj hres
            refine ⟨?_, h2, h3⟩
            simp only [List.length_cons, ← h1]

theorem runRequestModules_failed_last (et : JsVal) (rid : String)
    (ctrl : Nat) (env : JsVal) (sched : Nat → Bool)
    (mods : List (String × RegisteredRequestModule)) :
    ∀ (k : Nat) (s : FactoryState) (req : ArcEditorRequest) (j : Nat)
      (e : LogEntry) (w : String),
      (runRequestModules et rid ctrl env sched mods k s req).log.get? j = some e →
      e.res = .failed w →
      j + 1 = (runRequestModules et rid ctrl env sched mods k s req).log.length ∧
      (runRequestModules et rid ctrl env sched mods k s req).outcome = .error w ∧
      (runRequestModules et rid ctrl env sched mods k s req).request = e.reqAfter ∧
      ∃ orig, w = "Request module " ++ e.id ++ " reported error: " ++ orig := by
  induction mods with
  | nil => intro k s req j e w hj _; simp [runRequestModules] at hj
  | cons p rest ih =>
    intro k s req j e w hj hres
    obtain ⟨id, main⟩ := p
    revert hj
    simp only [runRequestModules]
    cases hab : heapGet (if sched k then abort s rid else s).heap ctrl with
    | true => intro hj; simp at hj
    | false =>
      simp only [Bool.false_eq_true, if_false]
      cases hex : executeRequestModule et req id main env false with
      | err req2 msg =>
        intro hj
        cases j with
        | zero =>
          simp only [List.get?_cons_zero, Option.some.injEq] at hj
          rw [← hj] at hres ⊢
          simp only [StepRes.failed.injEq] at hres
          subst hres
          exact ⟨rfl, rfl, rfl, executeRequestModule_err_shape _ _ _ _ _ _ _ _ hex⟩
        | succ n => simp at hj
      | ok req2 result =>
        try dsimp only
        cases hr : result == ExecutionResponse.ABORT with
        | true =>
          simp only [if_true]
          intro hj
          cases j with
          | zero =>
            simp only [List.get?_cons_zero, Option.some.injEq] at hj
            rw [← hj] at hres
            simp at hres
          | succ n => simp at hj
        | false =>
          simp only [Bool.false_eq_true, if_false]
          try dsimp only
          intro hj
          cases j with
          | zero =>
            simp only [List.get?_cons_zero, Option.some.injEq] at hj
            rw [← hj] at hres
            simp at hres
          | succ n =>
            simp only [List.get?_cons_succ] at hj
            obtain ⟨h1, h2, h3, h4⟩ := ih (k + 1) _ req2 n e w hj hres
            refine ⟨?_, h2, h3, h4⟩
            simp only [List.length_cons, ← h1]

theorem runRequestModules_complete (et : JsVal) (rid : String) (ctrl : Nat)
    (env : JsVal) (sched : Nat → Bool)
    (mods : List (String × RegisteredRequestModule)) :
    ∀ (k : Nat) (s : FactoryState) (req : ArcEditorRequest)
      (q : ArcEditorRequest),
      (runRequestModules et rid ctrl env sched mods k s req).outcome = .ok (some q) →
      (runRequestModules et rid ctrl env sched mods k s req).log.map LogEntry.id
        = mods.map Prod.fst := by
  induction mods with
  | nil => intro k s req q _; rfl
  | cons p rest ih =>
    intro k s req q hq
    obtain ⟨id, main⟩ := p
    revert hq
    simp only [runRequestModules]
    cases hab : heapGet (if sched k then abort s rid else s).heap ctrl with
    | true => intro hq; simp at hq
    | false =>
      simp only [Bool.false_eq_true, if_false]
      cases hex : executeRequestModule et req id main env false with
      | err req2 msg => intro hq; simp at hq
      | ok req2 result =>
        try dsimp only
        cases hr : result == ExecutionResponse.ABORT with
        | true => simp only [if_true]; intro hq; simp at hq
        | false =>
          simp only [Bool.false_eq_true, if_false]
          try dsimp only
          intro hq
          simp only [List.map_cons, List.cons.injEq, true_and]
          exact ih (k + 1) _ req2 q hq

theorem runRequestModules_error_state (et : JsVal) (rid : String) (ctrl : Nat)
    (env : JsVal) (sched : Nat → Bool) (hs : ∀ k, sched k = false)
    (mods : List (String × RegisteredRequestModule)) :
    ∀ (k : Nat) (s : FactoryState) (req : ArcEditorRequest) (w : String),
      (runRequestModules et rid ctrl env sched mods k s req).outcome = .error w →
      (runRequestModules et rid ctrl env sched mods k s req).state = s := by
  induction mods with
  | nil => intro k s req w hw; simp [runRequestModules] at hw
  | cons p rest ih =>
    intro k s req w hw
    obtain ⟨id, main⟩ := p
    revert hw
    simp only [runRequestModules, hs k, Bool.false_eq_true, if_false]
    cases hab : heapGet s.heap ctrl with
    | true => intro hw; simp at hw
    | false =>
      simp only [Bool.false_eq_true, if_false]
      cases hex : executeRequestModule et req id main env false with
      | err req2 msg =>
        intro hw
        rfl
      | ok req2 result =>
        try dsimp only
        cases hr : result == ExecutionResponse.ABORT with
        | true => simp only [if_true]; intro hw; simp at hw
        | false =>
          simp only [Bool.false_eq_true, if_false]
          try dsimp only
          intro hw
          exact ih (k + 1) s req2 w hw

/-! ## Response-loop lemmas -/

theorem runResponseModules_log_ids (et : JsVal) (rid : String) (ctrl : Nat)
    (ex : TransportRequest) (resp : ArcResponse) (env : JsVal)
    (sched : Nat → Bool) (mods : List (String × RegisteredResponseModule)) :
    ∀ (k : Nat) (s : FactoryState) (req : ArcEditorRequest),
      (runResponseModules et rid ctrl ex resp env sched mods k s req).log.map LogEntry.id
        = (mods.map Prod.fst).take
            (runResponseModules et rid ctrl ex resp env sched mods k s req).log.length := by
  induction mods with
  | nil => intro k s req; rfl
  | cons p rest ih =>
    intro k s req
    obtain ⟨id, main⟩ := p
    simp only [runResponseModules]
    cases hab : heapGet (if sched k then abort s rid else s).heap ctrl with
    | true => simp
    | false =>
      simp only [Bool.false_eq_true, if_false]
      cases hex : executeResponseModule et req ex resp id main env false with
      | err req2 msg => simp
      | ok req2 result =>
        try dsimp only
        cases hr : result == ExecutionResponse.ABORT with
        | true => simp
        | false =>
          simp only [hr, Bool.false_eq_true, if_false]
          try dsimp only
          simp only [List.map_cons, List.length_cons, List.take_succ_cons,
            List.cons.injEq, true_and]
          exact ih (k + 1) _ req2

theorem executeResponseModule_err_shape (et : JsVal) (req : ArcEditorRequest)
    (ex : TransportRequest) (resp : ArcResponse) (id : String)
    (info : RegisteredResponseModule) (env : JsVal) (sig : Bool)
    (req2 : ArcEditorRequest) (msg : String)
    (h : executeResponseModule et req ex resp id info env sig = .err req2 msg) :
    ∃ orig, msg = "Request module " ++ id ++ " reported error: " ++ orig := by
  simp only [executeResponseModule] at h
  cases hfn : info.fn req ex resp (buildExecutionContext et info.permissions env) sig with
  | done r2 res => rw [hfn] at h; simp at h
  | fail r2 e0 =>
    rw [hfn] at h
    simp only [ExecResult.err.injEq] at h
    exact ⟨e0, h.2.symm⟩

theorem runResponseModules_abortSignal_last (et : JsVal) (rid : String)
    (ctrl : Nat) (ex : TransportRequest) (resp : ArcResponse) (env : JsVal)
    (sched : Nat → Bool) (mods : List (String × RegisteredResponseModule)) :
    ∀ (k : Nat) (s : FactoryState) (req : ArcEditorRequest) (j : Nat)
      (e : LogEntry),
      (runResponseModules et rid ctrl ex resp env sched mods k s req).log.get? j = some e →
      e.res = .abortSignal →
      j + 1 = (runResponseModules et rid ctrl ex resp env sched mods k s req).log.length ∧
      (runResponseModules et rid ctrl ex resp env sched mods k s req).outcome = .ok () ∧
      (runResponseModules et rid ctrl ex resp env sched mods k s req).request = e.reqAfter := by
  induction mods with
  | nil => intro k s req j e hj _; simp [runResponseModules] at hj
  | cons p rest ih =>
    intro k s req j e hj hres
    obtain ⟨id, main⟩ := p
    revert hj
    simp only [runResponseModules]
    cases hab : heapGet (if sched k then abort s rid else s).heap ctrl with
    | true => intro hj; simp at hj
    | false =>
      simp only [Bool.false_eq_true, if_false]
      cases hex : executeResponseModule et req ex resp id main env false with
      | err req2 msg =>
        intro hj
        cases j with
        | zero =>
          simp only [List.get?_cons_zero, Option.some.injEq] at hj
          rw [← hj] at hres
          simp at hres
        | succ n => simp at hj
      | ok req2 result =>
        try dsimp only
        cases hr : result == ExecutionResponse.ABORT with
        | true =>
          simp only [if_true]
          intro hj
          cases j with
          | zero =>
            simp only [List.get?_cons_zero, Option.some.injEq] at hj
            rw [← hj]
            exact ⟨by simp, by simp, by simp⟩
          | succ n => simp at hj
        | false =>
          simp only [Bool.false_eq_true, if_false]
          try dsimp only
          intro hj
          cases j with
          | zero =>
            simp only [List.get?_cons_zero, Option.some.injEq] at hj
            rw [← hj] at hres
            simp at hres
          | succ n =>
            simp only [List.get?_cons_succ] at hj
            obtain ⟨h1, h2, h3⟩ := ih (k + 1) _ req2 n e hj hres
            refine ⟨?_, h2, h3⟩
            simp only [List.length_cons, ← h1]

theorem runResponseModules_failed_last (et : JsVal) (rid : String)
    (ctrl : Nat) (ex : TransportRequest) (resp : ArcResponse) (env : JsVal)
    (sched : Nat → Bool) (mods : List (String × RegisteredResponseModule)) :
    ∀ (k : Nat) (s : FactoryState) (req : ArcEditorRequest) (j : Nat)
      (e : LogEntry) (w : String),
      (runResponseModules et rid ctrl ex resp env sched mods k s req).log.get? j = some e →
      e.res = .failed w →
      j + 1 = (runResponseModules et rid ctrl ex resp env sched mods k s req).log.length ∧
      (runResponseModules et rid ctrl ex resp env sched mods k s req).outcome = .error w ∧
      (runResponseModules et rid ctrl ex resp env sched mods k s req).request = e.reqAfter ∧
      ∃ orig, w = "Request module " ++ e.id ++ " reported error: " ++ orig := by
  induction mods with
  | nil => intro k s req j e w hj _; simp [runResponseModules] at hj
  | cons p rest ih =>
    intro k s req j e w hj hres
    obtain ⟨id, main⟩ := p
    revert hj
    simp only [runResponseModules]
    cases hab : heapGet (if sched k then abort s rid else s).heap ctrl with
    | true => intro hj; simp at hj
    | false =>
      simp only [Bool.false_eq_true, if_false]
      cases hex : executeResponseModule et req ex resp id main env false with
      | err req2 msg =>
        intro hj
        cases j with
        | zero =>
          simp only [List.get?_cons_zero, Option.some.injEq] at hj
          rw [← hj] at hres ⊢
          simp only [StepRes.failed.injEq] at hres
          subst hres
          exact ⟨by simp, by simp, by simp,
            executeResponseModule_err_shape _ _ _ _ _ _ _ _ _ _ hex⟩
        | succ n => simp at hj
      | ok req2 result =>
        try dsimp only
        cases hr : result == ExecutionResponse.ABORT with
        | true =>
          simp only [if_true]
          intro hj
          cases j with
          | zero =>
            simp only [List.get?_cons_zero, Option.some.injEq] at hj
            rw [← hj] at hres
            simp at hres
          | succ n => simp at hj
        | false =>
          simp only [Bool.false_eq_true, if_false]
          try dsimp only
          intro hj
          cases j with
          | zero =>
            simp only [List.get?_cons_zero, Option.some.injEq] at hj
            rw [← hj] at hres
            simp at hres
          | succ n =>
            simp only [List.get?_cons_succ] at hj
            obtain ⟨h1, h2, h3, h4⟩ := ih (k + 1) _ req2 n e w hj hres
            refine ⟨?_, h2, h3, h4⟩
            simp only [List.length_cons, ← h1]

theorem runResponseModules_ok_token_gone (et : JsVal) (rid : String)
    (ctrl : Nat) (ex : TransportRequest) (resp : ArcResponse) (env : JsVal)
    (sched : Nat → Bool) (mods : List (String × RegisteredResponseModule)) :
    ∀ (k : Nat) (s : FactoryState) (req : ArcEditorRequest) (u : Unit),
      (runResponseModules et rid ctrl ex resp env sched mods k s req).outcome = .ok u →
      mapGet (runResponseModules et rid ctrl ex resp env sched mods k s req).state.abortControllers rid
        = none := by
  induction mods with
  | nil => intro k s req u _; exact mapGet_mapDelete_self _ _
  | cons p rest ih =>
    intro k s req u hu
    obtain ⟨id, main⟩ := p
    revert hu
    simp only [runResponseModules]
    cases hab : heapGet (if sched k then abort s rid else s).heap ctrl with
    | true => intro _; exact mapGet_mapDelete_self _ _
    | false =>
      simp only [Bool.false_eq_true, if_false]
      cases hex : executeResponseModule et req ex resp id main env false with
      | err req2 msg => intro hu; simp at hu
      | ok req2 result =>
        try dsimp only
        cases hr : result == ExecutionResponse.ABORT with
        | true =>
          simp only [if_true]
          intro _
          exact mapGet_mapDelete_self _ _
        | false =>
          simp only [Bool.false_eq_true, if_false]
          try dsimp only
          intro hu
          exact ih (k + 1) _ req2 u hu

/-! ## Claim theorems -/

/-- C2: for every permission set and environment,
`buildExecutionContext` contains exactly the fields implied by the
permissions: `eventsTarget` is always present; the `environment` data
(the provided environment value itself) is present iff `"environment"`
is granted; the `Events` bundle iff `"events"`; the `Store` bundle iff
`"store"`; and the `Environment`/`Variable` entries inside `Store` are
present iff both `"store"` and `"environment"` are granted.
Instantiating `permissions := []` gives a context with none of
`environment`, `Events`, `Store`. -/
theorem buildExecutionContext_permission_fields (et environment : JsVal)
    (permissions : List String) :
    ctxHas (buildExecutionContext et permissions environment) "eventsTarget" = true ∧
    (buildExecutionContext et permissions environment).get "environment"
      = (if permissions.contains "environment" then some environment else none) ∧
    ctxHas (buildExecutionContext et permissions environment) "environment"
      = permissions.contains "environment" ∧
    ctxHas (buildExecutionContext et permissions environment) "Events"
      = permissions.contains "events" ∧
    ctxHas (buildExecutionContext et permissions environment) "Store"
      = permissions.contains "store" ∧
    ctxHas2 (buildExecutionContext et permissions environment) "Store" "Environment"
      = (permissions.contains "store" && permissions.contains "environment") ∧
    ctxHas2 (buildExecutionContext et permissions environment) "Store" "Variable"
      = (permissions.contains "store" && permissions.contains "environment") := by
  by_cases hE : "environment" ∈ permissions <;>
  by_cases hV : "events" ∈ permissions <;>
  by_cases hS : "store" ∈ permissions <;>
    simp [buildExecutionContext, ctxHas, ctxHas2, JsVal.get, fieldsGet, freeze,
      prepareExecutionStore, prepareExecutionEvents, hE, hV, hS]

/-- C8 counterexample: the execution context is *not* deeply immutable.
With `permissions = ["environment"]` and a typical unfrozen environment
object, the environment data nested inside the (frozen) context is
itself an unfrozen object, so a module can still reassign fields inside
the environment data at runtime. -/
theorem buildExecutionContext_not_deeply_frozen :
    (buildExecutionContext (.prim "window") ["environment"] envSample).get "environment"
      = some envSample ∧
    envSample.isFrozen = false ∧
    JsVal.deepFrozen
      (buildExecutionContext (.prim "window") ["environment"] envSample) = false := by
  refine ⟨?_, rfl, ?_⟩
  · simp [buildExecutionContext, JsVal.get, fieldsGet, freeze, envSample]
  · simp [buildExecutionContext, JsVal.deepFrozen, deepFrozenFields, freeze,
      envSample, prepareExecutionEvents, prepareExecutionStore]

/-- C8 (amended): the context object itself and the `Events` and `Store`
sub-bundles are each frozen — their direct capability entries cannot be
added, removed or reassigned — but the freezing is shallow: the
`environment` data is included by reference, unfrozen, exactly as the
caller's environment object was. -/
theorem buildExecutionContext_frozen_shallow (et environment : JsVal)
    (permissions : List String) :
    (buildExecutionContext et permissions environment).isFrozen = true ∧
    frozenAt (buildExecutionContext et permissions environment) "Events" = true ∧
    frozenAt (buildExecutionContext et permissions environment) "Store" = true ∧
    (buildExecutionContext et permissions environment).get "environment"
      = (if permissions.contains "environment" then some environment else none) := by
  by_cases hE : "environment" ∈ permissions <;>
  by_cases hV : "events" ∈ permissions <;>
  by_cases hS : "store" ∈ permissions <;>
    simp [buildExecutionContext, frozenAt, JsVal.isFrozen, JsVal.get, fieldsGet,
      freeze, prepareExecutionStore, prepareExecutionEvents, hE, hV, hS]

/-- C9: within any single `processRequest` execution — any module list,
any schedule of concurrent `abort(request.id)` calls, any well-formed
starting state — the `signal.aborted` early-exit branch of the module
loop is never taken: the fresh controller allocated at the start of the
call is not placed into the registry until after the loop, and `abort`
only aborts controllers present in the registry. -/
theorem processRequest_cancel_branch_unreachable (et env : JsVal)
    (sched : Nat → Bool) (mods : List (String × RegisteredRequestModule))
    (s : FactoryState) (req : ArcEditorRequest) (hWF : s.WF) :
    (processRequest et mods env sched s req).early = false := by
  have hfresh : ctrlFresh s.nextCtrl
      ⟨s.heap ++ [(s.nextCtrl, false)], s.abortControllers, s.nextCtrl + 1⟩ := by
    constructor
    · exact heapGet_append_fresh s.heap s.nextCtrl false
        (fun p hp => Nat.ne_of_lt (hWF.1 p hp))
    · exact fun q hq => Nat.ne_of_lt (hWF.2 q hq)
  exact runRequestModules_early_false et req.id s.nextCtrl env sched mods 0 _ req hfresh

/-- C9 witness: a concrete well-formed state with a live registered
token for the request's id, and an `abort` interleaved right before the
first module — the branch is still not taken. -/
theorem processRequest_cancel_branch_unreachable_witness :
    FactoryState.WF stateWithToken ∧
    (processRequest (.prim "window") [("m1", contModule "A")] envSample
      abortAtStart stateWithToken reqSample).early = false :=
  ⟨by decide, processRequest_cancel_branch_unreachable (.prim "window") envSample
    abortAtStart [("m1", contModule "A")] stateWithToken reqSample (by decide)⟩

/-- C1 (code divergence, evaluated at the failing input): calling
`abort(request.id)` before any module runs does *not* make
`processRequest` resolve to null with zero module invocations — the
fresh controller is not registered while the loop runs, so `abort` finds
nothing (or only a stale token) to trip: the module is still invoked,
its mutation is applied, and the call resolves to the request. -/
theorem processRequest_abort_before_modules_is_ineffective :
    (processRequest (.prim "window") [("m1", contModule "A")] envSample
      abortAtStart emptyState reqSample).outcome
      = .ok (some ⟨"r1", ⟨"https://api.test/", "GET", "A", ""⟩⟩) ∧
    (processRequest (.prim "window") [("m1", contModule "A")] envSample
      abortAtStart emptyState reqSample).log.map LogEntry.id = ["m1"] :=
  ⟨rfl, rfl⟩

theorem wrapMessage_contains (id orig : String) :
    (∃ t u, t ++ id.data ++ u
      = ("Request module " ++ id ++ " reported error: " ++ orig).data) ∧
    (∃ t u, t ++ orig.data ++ u
      = ("Request module " ++ id ++ " reported error: " ++ orig).data) := by
  constructor
  · refine ⟨"Request module ".data, (" reported error: " ++ orig).data, ?_⟩
    show "Request module ".data ++ id.data ++ (" reported error: ".data ++ orig.data)
      = (("Request module ".data ++ id.data) ++ " reported error: ".data) ++ orig.data
    simp
  · refine ⟨("Request module " ++ id ++ " reported error: ").data, [], ?_⟩
    simp

/-- C3: if a module returns the `ABORT` signal then it is the last
module invoked (no subsequent module runs), no error is raised, and
`processRequest` resolves to null while `processResponse` resolves
silently. -/
theorem module_abort_signal_short_circuits :
    (∀ (et env : JsVal) (sched : Nat → Bool)
      (mods : List (String × RegisteredRequestModule)) (s : FactoryState)
      (req : ArcEditorRequest) (j : Nat) (e : LogEntry),
      (processRequest et mods env sched s req).log.get? j = some e →
      e.res = .abortSignal →
      j + 1 = (processRequest et mods env sched s req).log.length ∧
      (processRequest et mods env sched s req).outcome = .ok none) ∧
    (∀ (et env : JsVal) (sched : Nat → Bool)
      (mods : List (String × RegisteredResponseModule)) (s : FactoryState)
      (req : ArcEditorRequest) (ex : TransportRequest) (resp : ArcResponse)
      (j : Nat) (e : LogEntry),
      (processResponse et mods env sched s req ex resp).log.get? j = some e →
      e.res = .abortSignal →
      j + 1 = (processResponse et mods env sched s req ex resp).log.length ∧
      (processResponse et mods env sched s req ex resp).outcome = .ok ()) := by
  constructor
  · intro et env sched mods s req j e hj hres
    have h := runRequestModules_abortSignal_last et req.id s.nextCtrl env sched
      mods 0 ⟨s.heap ++ [(s.nextCtrl, false)], s.abortControllers, s.nextCtrl + 1⟩
      req j e hj hres
    exact ⟨h.1, h.2.1⟩
  · intro et env sched mods s req ex resp j e hj hres
    revert hj
    unfold processResponse
    cases hm : mapGet s.abortControllers req.id with
    | some c =>
      intro hj
      have h := runResponseModules_abortSignal_last et req.id c ex resp env sched
        mods 0 s req j e hj hres
      exact ⟨h.1, h.2.1⟩
    | none =>
      intro hj
      have h := runResponseModules_abortSignal_last et req.id s.nextCtrl ex resp
        env sched mods 0
        ⟨s.heap ++ [(s.nextCtrl, false)], s.abortControllers, s.nextCtrl + 1⟩
        req j e hj hres
      exact ⟨h.1, h.2.1⟩

/-- C3 witness: a three-module request pipeline whose second module
returns `ABORT`: module 2 is the last entry of the trace and the call
resolves to null. -/
theorem module_abort_signal_short_circuits_witness :
    (processRequest (.prim "window")
        [("m1", contModule "A"), ("m2", abortModule "B"), ("m3", contModule "C")]
        envSample noAborts emptyState reqSample).log.get? 1
      = some ⟨"m2", .abortSignal, ⟨"r1", ⟨"https://api.test/", "GET", "AB", ""⟩⟩⟩ ∧
    (1 + 1 = (processRequest (.prim "window")
        [("m1", contModule "A"), ("m2", abortModule "B"), ("m3", contModule "C")]
        envSample noAborts emptyState reqSample).log.length ∧
      (processRequest (.prim "window")
        [("m1", contModule "A"), ("m2", abortModule "B"), ("m3", contModule "C")]
        envSample noAborts emptyState reqSample).outcome = .ok none) :=
  ⟨rfl, module_abort_signal_short_circuits.1 (.prim "window") envSample noAborts
    [("m1", contModule "A"), ("m2", abortModule "B"), ("m3", contModule "C")]
    emptyState reqSample 1
    ⟨"m2", .abortSignal, ⟨"r1", ⟨"https://api.test/", "GET", "AB", ""⟩⟩⟩ rfl rfl⟩

/-- C4: if a module's invocation raises then it is the last module
invoked, the enclosing call rejects with the wrapped message — which
contains the module's id and the original error's message as substrings
— and the request mutations applied so far (including the failing
module's own) remain visible to the caller. -/
theorem module_error_rejects_wrapped :
    (∀ (et env : JsVal) (sched : Nat → Bool)
      (mods : List (String × RegisteredRequestModule)) (s : FactoryState)
      (req : ArcEditorRequest) (j : Nat) (e : LogEntry) (w : String),
      (processRequest et mods env sched s req).log.get? j = some e →
      e.res = .failed w →
      j + 1 = (processRequest et mods env sched s req).log.length ∧
      (processRequest et mods env sched s req).outcome = .error w ∧
      (processRequest et mods env sched s req).request = e.reqAfter ∧
      ∃ orig, w = "Request module " ++ e.id ++ " reported error: " ++ orig ∧
        (∃ t u, t ++ e.id.data ++ u = w.data) ∧
        (∃ t u, t ++ orig.data ++ u = w.data)) ∧
    (∀ (et env : JsVal) (sched : Nat → Bool)
      (mods : List (String × RegisteredResponseModule)) (s : FactoryState)
      (req : ArcEditorRequest) (ex : TransportRequest) (resp : ArcResponse)
      (j : Nat) (e : LogEntry) (w : String),
      (processResponse et mods env sched s req ex resp).log.get? j = some e →
      e.res = .failed w →
      j + 1 = (processResponse et mods env sched s req ex resp).log.length ∧
      (processResponse et mods env sched s req ex resp).outcome = .error w ∧
      (processResponse et mods env sched s req ex resp).request = e.reqAfter ∧
      ∃ orig, w = "Request module " ++ e.id ++ " reported error: " ++ orig ∧
        (∃ t u, t ++ e.id.data ++ u = w.data) ∧
        (∃ t u, t ++ orig.data ++ u = w.data)) := by
  constructor
  · intro et env sched mods s req j e w hj hres
    obtain ⟨h1, h2, h3, orig, horig⟩ := runRequestModules_failed_last et req.id
      s.nextCtrl env sched mods 0
      ⟨s.heap ++ [(s.nextCtrl, false)], s.abortControllers, s.nextCtrl + 1⟩
      req j e w hj hres
    refine ⟨h1, h2, h3, orig, horig, ?_, ?_⟩
    · rw [horig]; exact (wrapMessage_contains e.id orig).1
    · rw [horig]; exact (wrapMessage_contains e.id orig).2
  · intro et env sched mods s req ex resp j e w hj hres
    revert hj
    unfold processResponse
    cases hm : mapGet s.abortControllers req.id with
    | some c =>
      intro hj
      obtain ⟨h1, h2, h3, orig, horig⟩ := runResponseModules_failed_last et req.id
        c ex resp env sched mods 0 s req j e w hj hres
      refine ⟨h1, h2, h3, orig, horig, ?_, ?_⟩
      · rw [horig]; exact (wrapMessage_contains e.id orig).1
      · rw [horig]; exact (wrapMessage_contains e.id orig).2
    | none =>
      intro hj
      obtain ⟨h1, h2, h3, orig, horig⟩ := runResponseModules_failed_last et req.id
        s.nextCtrl ex resp env sched mods 0
        ⟨s.heap ++ [(s.nextCtrl, false)], s.abortControllers, s.nextCtrl + 1⟩
        req j e w hj hres
      refine ⟨h1, h2, h3, orig, horig, ?_, ?_⟩
      · rw [horig]; exact (wrapMessage_contains e.id orig).1
      · rw [horig]; exact (wrapMessage_contains e.id orig).2

/-- C4 witness: a two-module request pipeline whose second module throws
`boom`: the trace ends at module 2, the call rejects with the wrapped
message, and module 1's mutation persists on the request. -/
theorem module_error_rejects_wrapped_witness :
    (processRequest (.prim "window")
        [("m1", contModule "A"), ("m2", failModule "boom"), ("m3", contModule "C")]
        envSample noAborts emptyState reqSample).log.get? 1
      = some ⟨"m2", .failed "Request module m2 reported error: boom",
          ⟨"r1", ⟨"https://api.test/", "GET", "A", ""⟩⟩⟩ ∧
    (1 + 1 = (processRequest (.prim "window")
        [("m1", contModule "A"), ("m2", failModule "boom"), ("m3", contModule "C")]
        envSample noAborts emptyState reqSample).log.length ∧
      (processRequest (.prim "window")
        [("m1", contModule "A"), ("m2", failModule "boom"), ("m3", contModule "C")]
        envSample noAborts emptyState reqSample).outcome
        = .error "Request module m2 reported error: boom" ∧
      (processRequest (.prim "window")
        [("m1", contModule "A"), ("m2", failModule "boom"), ("m3", contModule "C")]
        envSample noAborts emptyState reqSample).request
        = ⟨"r1", ⟨"https://api.test/", "GET", "A", ""⟩⟩ ∧
      ∃ orig, "Request module m2 reported error: boom"
          = "Request module " ++ "m2" ++ " reported error: " ++ orig ∧
        (∃ t u, t ++ "m2".data ++ u
          = ("Request module m2 reported error: boom").data) ∧
        (∃ t u, t ++ orig.data ++ u
          = ("Request module m2 reported error: boom").data)) :=
  ⟨rfl, module_error_rejects_wrapped.1 (.prim "window") envSample noAborts
    [("m1", contModule "A"), ("m2", failModule "boom"), ("m3", contModule "C")]
    emptyState reqSample 1
    ⟨"m2", .failed "Request module m2 reported error: boom",
      ⟨"r1", ⟨"https://api.test/", "GET", "A", ""⟩⟩⟩
    "Request module m2 reported error: boom" rfl rfl⟩

/-- C7: both pipelines invoke modules exactly in registration order —
the invocation trace is always the corresponding prefix of the
registered list, and a fully completed request pipeline (one resolving
to the request) has invoked every registered module in order.  The
registered list itself is a pure input the runner only reads. -/
theorem modules_dispatch_in_registration_order :
    (∀ (et env : JsVal) (sched : Nat → Bool)
      (mods : List (String × RegisteredRequestModule)) (s : FactoryState)
      (req : ArcEditorRequest),
      (processRequest et mods env sched s req).log.map LogEntry.id
        = (mods.map Prod.fst).take
            (processRequest et mods env sched s req).log.length) ∧
    (∀ (et env : JsVal) (sched : Nat → Bool)
      (mods : List (String × RegisteredResponseModule)) (s : FactoryState)
      (req : ArcEditorRequest) (ex : TransportRequest) (resp : ArcResponse),
      (processResponse et mods env sched s req ex resp).log.map LogEntry.id
        = (mods.map Prod.fst).take
            (processResponse et mods env sched s req ex resp).log.length) ∧
    (∀ (et env : JsVal) (sched : Nat → Bool)
      (mods : List (String × RegisteredRequestModule)) (s : FactoryState)
      (req : ArcEditorRequest) (q : ArcEditorRequest),
      (processRequest et mods env sched s req).outcome = .ok (some q) →
      (processRequest et mods env sched s req).log.map LogEntry.id
        = mods.map Prod.fst) := by
  refine ⟨?_, ?_, ?_⟩
  · intro et env sched mods s req
    exact runRequestModules_log_ids et req.id s.nextCtrl env sched mods 0
      ⟨s.heap ++ [(s.nextCtrl, false)], s.abortControllers, s.nextCtrl + 1⟩ req
  · intro et env sched mods s req ex resp
    unfold processResponse
    cases hm : mapGet s.abortControllers req.id with
    | some c =>
      exact runResponseModules_log_ids et req.id c ex resp env sched mods 0 s req
    | none =>
      exact runResponseModules_log_ids et req.id s.nextCtrl ex resp env sched mods 0
        ⟨s.heap ++ [(s.nextCtrl, false)], s.abortControllers, s.nextCtrl + 1⟩ req
  · intro et env sched mods s req q hq
    exact runRequestModules_complete et req.id s.nextCtrl env sched mods 0
      ⟨s.heap ++ [(s.nextCtrl, false)], s.abortControllers, s.nextCtrl + 1⟩ req q hq

/-- C7 witness: a two-module pipeline that completes: the trace is
exactly the registration order. -/
theorem modules_dispatch_in_registration_order_witness :
    (processRequest (.prim "window")
        [("m1", contModule "A"), ("m2", contModule "B")]
        envSample noAborts emptyState reqSample).outcome
      = .ok (some ⟨"r1", ⟨"https://api.test/", "GET", "AB", ""⟩⟩) ∧
    (processRequest (.prim "window")
        [("m1", contModule "A"), ("m2", contModule "B")]
        envSample noAborts emptyState reqSample).log.map LogEntry.id
      = ["m1", "m2"] :=
  ⟨rfl, modules_dispatch_in_registration_order.2.2 (.prim "window") envSample
    noAborts [("m1", contModule "A"), ("m2", contModule "B")] emptyState reqSample
    ⟨"r1", ⟨"https://api.test/", "GET", "AB", ""⟩⟩ rfl⟩

/-- C10: when a request module raises (no concurrent aborts
interleaved), the rejection propagates and the call leaves the
`abortControllers` registry exactly as it was before the call — in
particular no token is registered under `request.id` by that call, since
registration happens only after every module completed without abort. -/
theorem processRequest_error_preserves_registry (et env : JsVal)
    (mods : List (String × RegisteredRequestModule)) (s : FactoryState)
    (req : ArcEditorRequest) (w : String)
    (hw : (processRequest et mods env noAborts s req).outcome = .error w) :
    (processRequest et mods env noAborts s req).state.abortControllers
      = s.abortControllers := by
  have h := runRequestModules_error_state et req.id s.nextCtrl env noAborts
    (fun _ => rfl) mods 0
    ⟨s.heap ++ [(s.nextCtrl, false)], s.abortControllers, s.nextCtrl + 1⟩ req w hw
  have h2 := congrArg FactoryState.abortControllers h
  exact h2

/-- C10 witness: a failing module on the empty factory: the rejection
surfaces and the registry is unchanged (still empty). -/
theorem processRequest_error_preserves_registry_witness :
    (processRequest (.prim "window") [("m1", failModule "boom")] envSample
        noAborts emptyState reqSample).outcome
      = .error "Request module m1 reported error: boom" ∧
    (processRequest (.prim "window") [("m1", failModule "boom")] envSample
        noAborts emptyState reqSample).state.abortControllers
      = emptyState.abortControllers :=
  ⟨rfl, processRequest_error_preserves_registry (.prim "window") envSample
    [("m1", failModule "boom")] emptyState reqSample
    "Request module m1 reported error: boom" rfl⟩

/-- C5 counterexample: `processResponse` does *not* always terminate the
token's lifetime: when a response module raises, the rejection
propagates before any `delete`, and the previously registered token for
`request.id` is still registered after the call. -/
theorem processResponse_error_keeps_token :
    (processResponse (.prim "window") [("m1", failRespModule "boom")] envSample
        noAborts stateWithToken reqSample "sent" "resp").outcome
      = .error "Request module m1 reported error: boom" ∧
    mapGet (processResponse (.prim "window") [("m1", failRespModule "boom")]
        envSample noAborts stateWithToken reqSample "sent" "resp").state.abortControllers
        "r1"
      = some 0 :=
  ⟨rfl, rfl⟩

/-- C5 (amended): whenever `processResponse` resolves — the pipeline
completed all modules, stopped on cancellation, or stopped on a module's
`ABORT` signal — no cancellation token remains registered for
`request.id`; only a module failure (a rejection) leaves a previously
registered token in place. -/
theorem processResponse_ok_removes_token (et env : JsVal) (sched : Nat → Bool)
    (mods : List (String × RegisteredResponseModule)) (s : FactoryState)
    (req : ArcEditorRequest) (ex : TransportRequest) (resp : ArcResponse)
    (u : Unit)
    (hu : (processResponse et mods env sched s req ex resp).outcome = .ok u) :
    mapGet (processResponse et mods env sched s req ex resp).state.abortControllers
      req.id = none := by
  revert hu
  unfold processResponse
  cases hm : mapGet s.abortControllers req.id with
  | some c =>
    intro hu
    exact runResponseModules_ok_token_gone et req.id c ex resp env sched mods 0
      s req u hu
  | none =>
    intro hu
    exact runResponseModules_ok_token_gone et req.id s.nextCtrl ex resp env sched
      mods 0 ⟨s.heap ++ [(s.nextCtrl, false)], s.abortControllers, s.nextCtrl + 1⟩
      req u hu

/-- C5 witness: a completing response pipeline on a factory holding a
live token for the request: afterwards the token is gone. -/
theorem processResponse_ok_removes_token_witness :
    (processResponse (.prim "window") [("m1", contRespModule "A")] envSample
        noAborts stateWithToken reqSample "sent" "resp").outcome = .ok () ∧
    mapGet (processResponse (.prim "window") [("m1", contRespModule "A")]
        envSample noAborts stateWithToken reqSample "sent" "resp").state.abortControllers
        "r1"
      = none :=
  ⟨rfl, processResponse_ok_removes_token (.prim "window") envSample noAborts
    [("m1", contRespModule "A")] stateWithToken reqSample "sent" "resp" () rfl⟩

/-- C6 counterexample: `processRequest` does *not* obtain its token via
begin-style reuse: with a live token (controller 0) registered for
`r1`, the pipeline runs with a newly created controller (number 1), a
duplicate is created, and aborting `r1` before module 1 — which aborts
and unregisters controller 0 — does not stop the pipeline. -/
theorem processRequest_ignores_registered_token :
    mapGet stateWithToken.abortControllers "r1" = some 0 ∧
    (processRequest (.prim "window") [("m1", contModule "A")] envSample
        abortAtStart stateWithToken reqSample).usedCtrl = 1 ∧
    (processRequest (.prim "window") [("m1", contModule "A")] envSample
        abortAtStart stateWithToken reqSample).log.map LogEntry.id = ["m1"] ∧
    (processRequest (.prim "window") [("m1", contModule "A")] envSample
        abortAtStart stateWithToken reqSample).outcome
      = .ok (some ⟨"r1", ⟨"https://api.test/", "GET", "A", ""⟩⟩) :=
  ⟨rfl, rfl, rfl, rfl⟩

/-- C6 (amended): `processRequest` always creates a fresh controller and
runs its pipeline with that controller's signal, regardless of whether a
live token is registered for `request.id`; the begin-style semantics —
reuse the existing live token, else create a fresh one — is what
`processResponse` does. -/
theorem processRequest_fresh_processResponse_reuses :
    (∀ (et env : JsVal) (sched : Nat → Bool)
      (mods : List (String × RegisteredRequestModule)) (s : FactoryState)
      (req : ArcEditorRequest),
      (processRequest et mods env sched s req).usedCtrl = s.nextCtrl) ∧
    (∀ (et env : JsVal) (sched : Nat → Bool)
      (mods : List (String × RegisteredResponseModule)) (s : FactoryState)
      (req : ArcEditorRequest) (ex : TransportRequest) (resp : ArcResponse),
      (processResponse et mods env sched s req ex resp).usedCtrl
        = (mapGet s.abortControllers req.id).getD s.nextCtrl) := by
  constructor
  · intro et env sched mods s req
    rfl
  · intro et env sched mods s req ex resp
    unfold processResponse
    cases hm : mapGet s.abortControllers req.id with
    | some c => rfl
    | none => rfl

end RequestEngine


